import Mathlib

/-!
Shallow embedding of the CSV → Shopify bulk product importer (`src/app.py`).

Strings are modelled by Lean `String` (Python `str.lower()` on the ASCII
range coincides with `Char.toLower`/`String.toLower`); binary file contents
are modelled as `List Nat` (byte values).  The zip archive is modelled as the
ordered list of its entries `(name, content)`, which is what
`zf.namelist()` / `zf.open(name).read()` expose to `build_image_index_from_zip`.
Remote behaviour is modelled by an environment of pure functions giving the
outcome of each (retry-wrapped) HTTP call, and the main loop is modelled as a
pure function from rows to the produced log records together with the trace
of remote calls it performs.
-/

namespace ProdottiWow

/-- Boolean test whether `pat` occurs as a contiguous sublist of the second
argument; models Python's `pat in s` substring test (used in
`find_images_for_product`). -/
def hasSubstr (pat : List Char) : List Char → Bool
  | [] => pat.isEmpty
  | c :: t => pat.isPrefixOf (c :: t) || hasSubstr pat t

/-- Python `pat in s` on strings. -/
def containsSub (s pat : String) : Bool := hasSubstr pat.data s.data

/-- Python `s.lower()`; on the ASCII range `Char.toLower` is exactly the
Python behaviour (the repository's filenames, extensions and identity keys
are compared ASCII-wise). -/
def pyLower (s : String) : String := String.mk (s.data.map Char.toLower)

/-- Python `s.strip()`: remove leading and trailing whitespace. -/
def pyStrip (s : String) : String :=
  String.mk (((s.data.dropWhile Char.isWhitespace).reverse.dropWhile
    Char.isWhitespace).reverse)

/-- Python `s.endswith(suf)`. -/
def pyEndsWith (s suf : String) : Bool := suf.data.isSuffixOf s.data

/-- Python `s[:n]` (slicing by code points). -/
def takeChars (s : String) (n : Nat) : String := String.mk (s.data.take n)

/-- Python `s.split(sep)` for a one-character separator, on char lists. -/
def splitCharAux (sep : Char) : List Char → List (List Char)
  | [] => [[]]
  | c :: t =>
      if c = sep then [] :: splitCharAux sep t
      else
        match splitCharAux sep t with
        | [] => [[c]]
        | x :: xs => (c :: x) :: xs

/-- Python `s.split(",")`. -/
def splitComma (s : String) : List String :=
  (splitCharAux ',' s.data).map String.mk

/-- Python `"/".split`-style last component: `name.split('/')[-1]`. -/
def lastSlashPart (s : String) : String :=
  String.mk ((splitCharAux '/' s.data).getLastD [])

/-- Helper for `", ".join`. -/
def joinAux : List String → List Char
  | [] => []
  | [s] => s.data
  | s :: t => s.data ++ (',' :: ' ' :: joinAux t)

/-- Python `", ".join(xs)`. -/
def joinCommaSpace (xs : List String) : String := String.mk (joinAux xs)

/-- The base64 alphabet digit, models the encoding table used by
`base64.b64encode`. -/
def b64Digit (n : Nat) : Char :=
  "ABCDEFGHIJKLMNOPQRSTUVWXYZabcdefghijklmnopqrstuvwxyz0123456789+/".data.getD n '='

/-- RFC 4648 base64 of a byte list, models `base64.b64encode(content).decode("utf-8")`
in `find_images_for_product`. -/
def base64Encode : List Nat → List Char
  | [] => []
  | [a] => [b64Digit (a / 4), b64Digit (a % 4 * 16), '=', '=']
  | [a, b] => [b64Digit (a / 4), b64Digit (a % 4 * 16 + b / 16), b64Digit (b % 16 * 4), '=']
  | a :: b :: c :: rest =>
      b64Digit (a / 4) :: b64Digit (a % 4 * 16 + b / 16) ::
        b64Digit (b % 16 * 4 + c / 64) :: b64Digit (c % 64) :: base64Encode rest

/-! ### Archive indexer (`build_image_index_from_zip`, app.py lines 136-143) -/

/-- The supported image extensions tuple of app.py line 137. -/
def supported_ext : List String := [".jpg", ".jpeg", ".png", ".gif", ".webp"]

/-- Python `name.lower().endswith(supported_ext)`. -/
def hasSupportedExt (name : String) : Bool :=
  supported_ext.any (fun e => pyEndsWith (pyLower name) e)

/-- Python `name.split('/')[-1].lower()`: the lowercased basename under which
an archive entry is stored in the image index. -/
def basenameLower (name : String) : String :=
  pyLower (lastSlashPart name)

/-- Insertion into a Python `dict` modelled as an association list in
insertion order: an existing key is overwritten in place, a new key is
appended at the end. -/
def dictInsert {α : Type} : List (String × α) → String → α → List (String × α)
  | [], k, v => [(k, v)]
  | (k', v') :: rest, k, v =>
      if k' = k then (k, v) :: rest else (k', v') :: dictInsert rest k v

/-- The entry filter of app.py line 140:
`name.lower().endswith(supported_ext) and not name.endswith("/")`. -/
def zipQualifies (name : String) : Bool :=
  hasSupportedExt name && !(pyEndsWith name "/")

/-- Loop body accumulator of `build_image_index_from_zip`: walk the archive
entries in order and insert every qualifying entry. -/
def buildIndexAux : List (String × List Nat) → List (String × List Nat) → List (String × List Nat)
  | idx, [] => idx
  | idx, (n, c) :: rest =>
      buildIndexAux
        (if zipQualifies n then dictInsert idx (basenameLower n) c else idx)
        rest

/-- Models `build_image_index_from_zip` (app.py lines 136-143): the zip file is
modelled as its ordered list of entries `(name, content)`. -/
def build_image_index_from_zip (entries : List (String × List Nat)) : List (String × List Nat) :=
  buildIndexAux [] entries

/-! ### Image matching (`find_images_for_product`, app.py lines 145-152) -/

/-- One matched image dict `{"attachment": b64, "filename": fname}`. -/
structure MatchedImage where
  attachment : String
  filename : String
deriving DecidableEq, Repr

/-- Models `find_images_for_product` (app.py lines 145-152): drop falsy keys,
lowercase the rest, and keep every index entry whose filename contains some
key as a substring, in index iteration order. -/
def find_images_for_product (index : List (String × List Nat)) (keys : List String) :
    List MatchedImage :=
  let keys2 := (keys.filter (fun k => k ≠ "")).map pyLower
  (index.filter (fun fc => keys2.any (fun k => containsSub fc.1 k))).map
    (fun fc => { attachment := String.mk (base64Encode fc.2), filename := fc.1 })

/-! ### Slugify fallback (app.py lines 17-20)

The fallback `slugify` is modelled on code-point lists (`List Nat`).
`unicodedata.normalize("NFKD", ·).encode("ascii", "ignore").decode("ascii")`
is modelled as retaining the ASCII code points (NFKD leaves ASCII fixed and
`ascii/ignore` drops everything that is not ASCII); `str.lower()` on the
resulting ASCII text is the +32 shift on `A`-`Z`.  Code point 45 is `-`. -/

/-- Models the NFKD + `encode("ascii","ignore")` step: keep the ASCII code
points. -/
def sAsciiIgnore (l : List Nat) : List Nat := l.filter (fun n => n < 128)

/-- Python `str.lower()` on ASCII text. -/
def sLower (l : List Nat) : List Nat :=
  l.map (fun n => if 65 ≤ n ∧ n ≤ 90 then n + 32 else n)

/-- Membership in the regex character class `[a-zA-Z0-9-]`. -/
def sKeep (n : Nat) : Bool :=
  (97 ≤ n && n ≤ 122) || (65 ≤ n && n ≤ 90) || (48 ≤ n && n ≤ 57) || (n == 45)

/-- Models `re.sub(r"[^a-zA-Z0-9-]+", "-", ·)`: every maximal run of
characters outside the class is replaced by a single hyphen.  The boolean
state records whether we are inside such a run. -/
def sSubRuns : Bool → List Nat → List Nat
  | _, [] => []
  | inRun, n :: l =>
      if sKeep n then n :: sSubRuns false l
      else if inRun then sSubRuns true l else 45 :: sSubRuns true l

/-- Removes the maximal trailing run of hyphens. -/
def sStripEnd : List Nat → List Nat
  | [] => []
  | n :: t =>
      match sStripEnd t with
      | [] => if n == 45 then [] else [n]
      | r => n :: r

/-- Models Python `.strip("-")`: remove leading and trailing hyphen runs. -/
def sStrip (l : List Nat) : List Nat := sStripEnd (l.dropWhile (fun n => n == 45))

/-- Models `re.sub(r"-+", "-", ·)`: collapse every hyphen run to a single
hyphen.  The boolean state records whether we are inside a hyphen run. -/
def sCollapse : Bool → List Nat → List Nat
  | _, [] => []
  | inRun, n :: l =>
      if n == 45 then (if inRun then sCollapse true l else 45 :: sCollapse true l)
      else n :: sCollapse false l

/-- The fallback `slugify` of app.py lines 17-20 on code-point lists. -/
def slugifyCore (l : List Nat) : List Nat :=
  sCollapse false (sStrip (sSubRuns false (sLower (sAsciiIgnore l))))

/-- The fallback `slugify` of app.py lines 17-20 on strings. -/
def slugify (s : String) : String :=
  String.mk ((slugifyCore (s.data.map Char.toNat)).map Char.ofNat)

/-! ### Retry policy (app.py lines 157-173)

`create_product` and `attach_image` are wrapped in
`@retry(reraise=True, stop=stop_after_attempt(4), wait=wait_exponential(...),
retry=retry_if_exception_type(ShopifyError))`.  A remote call either succeeds
or raises: `ShopifyError` (any HTTP status >= 400, app.py lines 75-80) or a
network-level error of the HTTP library, which is not a `ShopifyError`.
The wrapped callable is modelled as a function from the attempt number
(starting at 1) to the outcome of running it once; the wait times are not
modelled (they do not affect the result). -/

/-- Error raised by one underlying remote call. -/
inductive ApiError
  | shopify (detail : String)
  | network (detail : String)
deriving DecidableEq, Repr

/-- The tenacity predicate `retry_if_exception_type(ShopifyError)`. -/
def ApiError.isShopify : ApiError → Bool
  | .shopify _ => true
  | .network _ => false

/-- Attempt loop of the tenacity decorator: run attempt `attempt`, on success
stop, on a `ShopifyError` retry while `fuel` attempts remain, on any other
error re-raise immediately.  Returns the outcome and the number of attempts
made. -/
def retryAux {α : Type} (f : Nat → Except ApiError α) :
    Nat → Nat → Except ApiError α × Nat
  | attempt, fuel =>
      match f attempt with
      | .ok a => (.ok a, attempt)
      | .error e =>
          match fuel with
          | 0 => (.error e, attempt)
          | fuel' + 1 =>
              if e.isShopify then retryAux f (attempt + 1) fuel'
              else (.error e, attempt)

/-- Models a call to the retry-decorated `create_product` / `attach_image`:
`stop_after_attempt(4)` makes at most 4 total attempts and `reraise=True`
surfaces the last error. -/
def retryCall {α : Type} (f : Nat → Except ApiError α) : Except ApiError α × Nat :=
  retryAux f 1 3

/-! ### Row processing and main loop (app.py lines 187-305) -/

/-- One CSV row; each field is the string content of the corresponding
column (a missing column is the empty string). -/
structure Row where
  titolo : String
  sku : String
  descrizione : String
  collezioni : String
  tag : String
  titoloPagina : String
  metaDescrizione : String
  handleURL : String
deriving DecidableEq, Repr

/-- The run-wide sidebar settings.  `defaultPriceStr` is `str(default_price)`
as interpolated into the variant payload. -/
structure Config where
  defaultVendor : String
  defaultProductType : String
  defaultPriceStr : String
  defaultStatus : String
  inventoryPolicy : String
  inventoryQtyDefault : Int
  maxImagesPerProduct : Nat
deriving DecidableEq, Repr

/-- JSON-like payload values, distinguishing an absent key (not represented)
from a key mapped to `null` (`PVal.null`). -/
inductive PVal
  | str (s : String)
  | num (n : Int)
  | bool (b : Bool)
  | null
  | list (xs : List PVal)
  | obj (fields : List (String × PVal))

/-- Python `title = str(row.get("Titolo Prodotto", "")).strip()`. -/
def rowTitle (r : Row) : String := pyStrip r.titolo

/-- Python `sku = str(row.get("SKU", "")).strip()`. -/
def rowSku (r : Row) : String := pyStrip r.sku

/-- Python `handle = str(row.get("Handle URL", "") or "").strip() or
(slugify(title) if title else None)` (app.py line 220). -/
def rowHandle (r : Row) : Option String :=
  let h := pyStrip r.handleURL
  if h ≠ "" then some h
  else if rowTitle r ≠ "" then some (slugify (rowTitle r))
  else none

/-- Python `tag_list = [t.strip() for t in tags.split(",") if t.strip()]`
applied to the stripped `Tag` column (app.py lines 217 and 237). -/
def rowTagList (r : Row) : List String :=
  ((splitComma (pyStrip r.tag)).map pyStrip).filter (fun t => t ≠ "")

/-- Python `tags_str = ", ".join(tag_list) if tag_list else None` (app.py line 238). -/
def rowTagsStr (r : Row) : Option String :=
  if rowTagList r = [] then none else some (joinCommaSpace (rowTagList r))

/-- Python truthiness of the optional handle. -/
def optTruthy : Option String → Bool
  | none => false
  | some s => s ≠ ""

/-- Python `keys = [k for k in [sku, handle] if k]` (app.py line 243). -/
def rowKeys (r : Row) : List String :=
  (([some (rowSku r), rowHandle r].filterMap id)).filter (fun k => k ≠ "")

/-- The single variant dict of app.py lines 227-235. -/
def variantFields (cfg : Config) (r : Row) : List (String × PVal) :=
  [("sku", if rowSku r ≠ "" then .str (rowSku r) else .null),
   ("price", .str cfg.defaultPriceStr),
   ("inventory_policy", .str cfg.inventoryPolicy),
   ("inventory_management", .str "shopify"),
   ("inventory_quantity", .num cfg.inventoryQtyDefault),
   ("requires_shipping", .bool true),
   ("taxable", .bool true)]

/-- The `product_payload` dict of app.py lines 249-259, including the
conditional `handle` key. -/
def rowPayload (cfg : Config) (r : Row) : List (String × PVal) :=
  [("title", .str (rowTitle r)),
   ("body_html", .str (pyStrip r.descrizione)),
   ("vendor", .str cfg.defaultVendor),
   ("product_type", .str cfg.defaultProductType),
   ("status", .str cfg.defaultStatus),
   ("tags", match rowTagsStr r with | some s => .str s | none => .null),
   ("variants", .list [.obj (variantFields cfg r)])] ++
  (if optTruthy (rowHandle r) then [("handle", .str ((rowHandle r).getD ""))] else [])

/-- The `images_found` computation of app.py lines 241-246: matching happens
only when the image index is non-empty, and the match list is truncated only
when `max_images_per_product` is truthy (nonzero) and exceeded. -/
def rowImages (cfg : Config) (index : List (String × List Nat)) (r : Row) :
    List MatchedImage :=
  if index ≠ [] then
    if cfg.maxImagesPerProduct ≠ 0 ∧
        (find_images_for_product index (rowKeys r)).length > cfg.maxImagesPerProduct then
      (find_images_for_product index (rowKeys r)).take cfg.maxImagesPerProduct
    else find_images_for_product index (rowKeys r)
  else []

/-- The partial update dict built by `update_product_metafields`
(app.py lines 175-182): SEO title truncated to 70 characters, SEO
description to 320, only truthy fields included. -/
def seoUpdateFields (seo_title seo_desc : String) : List (String × PVal) :=
  (if seo_title ≠ "" then [("metafields_global_title_tag", .str (takeChars seo_title 70))] else []) ++
  (if seo_desc ≠ "" then [("metafields_global_description_tag", .str (takeChars seo_desc 320))] else [])

/-- The fields of the created product the main loop reads back
(`prod.get("id")`, `prod.get("handle")`). -/
structure Product where
  id : Option Int
  handle : Option String
deriving DecidableEq, Repr

/-- Outcomes of the retry-wrapped remote calls, as observed by the main
loop: a `ShopifyError` detail string on failure.  (Only `ShopifyError` is
caught by the per-row handlers, so only that kind is modelled here.) -/
structure Env where
  create : List (String × PVal) → Except String Product
  attach : Option Int → MatchedImage → Except String Unit

/-- One dict appended to `logs`; each constructor carries exactly the keys
of the corresponding literal in app.py. -/
inductive LogEntry
  | skipped (row : Nat) (title sku reason : String)
  | imageError (row : Nat) (title sku : String) (product_id : Option Int)
      (error : String) (filename : String)
  | created (row : Nat) (title sku : String) (product_id : Option Int)
      (handle : Option String) (images_attached : Nat)
  | error (row : Nat) (title sku : String) (error : String)

/-- One remote HTTP call performed by the main loop. -/
inductive RemoteCall
  | createP (payload : List (String × PVal))
  | putSeo (product_id : Option Int) (payload : List (String × PVal))
  | attachImg (product_id : Option Int) (img : MatchedImage)

/-- One iteration of the main loop (app.py lines 211-305) for row number `i`:
returns the log records appended for this row and the remote calls made.
The SEO update call is recorded in the trace; its outcome only feeds an
informational note and is therefore not modelled. -/
def processRow (cfg : Config) (env : Env) (index : List (String × List Nat))
    (i : Nat) (r : Row) : List LogEntry × List RemoteCall :=
  if rowTitle r = "" then
    ([.skipped i (rowTitle r) (rowSku r) "Titolo mancante"], [])
  else
    let payload := rowPayload cfg r
    let images := rowImages cfg index r
    match env.create payload with
    | .error e => ([.error i (rowTitle r) (rowSku r) (takeChars e 500)], [.createP payload])
    | .ok prod =>
        let seo := seoUpdateFields (pyStrip r.titoloPagina) (pyStrip r.metaDescrizione)
        let seoCalls := if seo.isEmpty then [] else [RemoteCall.putSeo prod.id seo]
        let results := images.map (fun img => (img, env.attach prod.id img))
        let imageLogs := results.filterMap (fun p =>
          match p.2 with
          | .ok _ => none
          | .error e =>
              some (LogEntry.imageError i (rowTitle r) (rowSku r) prod.id (takeChars e 300)
                p.1.filename))
        let attached := (results.filter (fun p => p.2.isOk)).length
        (imageLogs ++
           [.created i (rowTitle r) (rowSku r) prod.id prod.handle attached],
         .createP payload :: seoCalls ++ images.map (fun img => .attachImg prod.id img))

/-- The main loop over the remaining rows, starting at row number `i`. -/
def processRowsFrom (cfg : Config) (env : Env) (index : List (String × List Nat)) :
    Nat → List Row → List LogEntry × List RemoteCall
  | _, [] => ([], [])
  | i, r :: rs =>
      let p := processRow cfg env index i r
      let q := processRowsFrom cfg env index (i + 1) rs
      (p.1 ++ q.1, p.2 ++ q.2)

/-- The whole run over the parsed CSV rows (app.py lines 211-305). -/
def processRows (cfg : Config) (env : Env) (index : List (String × List Nat))
    (rows : List Row) : List LogEntry × List RemoteCall :=
  processRowsFrom cfg env index 0 rows

/-! ### Normal form of slugified text, used to reason about idempotence -/

/-- A code point that can occur in a slug: `[a-z0-9-]`. -/
def sNormChar (n : Nat) : Bool :=
  (97 ≤ n && n ≤ 122) || (48 ≤ n && n ≤ 57) || (n == 45)

/-- Whether a code-point list starts with a hyphen. -/
def head45 : List Nat → Bool
  | [] => false
  | n :: _ => n == 45

/-- Whether a code-point list ends with a hyphen. -/
def last45 : List Nat → Bool
  | [] => false
  | [n] => n == 45
  | _ :: n :: t => last45 (n :: t)

/-- Whether a code-point list contains two adjacent hyphens. -/
def hasDH : List Nat → Bool
  | n :: m :: t => (n == 45 && m == 45) || hasDH (m :: t)
  | _ => false

/-! ### Concrete instances used by witnesses and counterexamples -/

/-- A configuration with the default `max_images_per_product = 10`. -/
def cfgMax10 : Config :=
  { defaultVendor := "Brand", defaultProductType := "Altro", defaultPriceStr := "0.0",
    defaultStatus := "active", inventoryPolicy := "deny", inventoryQtyDefault := 0,
    maxImagesPerProduct := 10 }

/-- The same configuration with `max_images_per_product = 0`. -/
def cfgMax0 : Config := { cfgMax10 with maxImagesPerProduct := 0 }

/-- A row with title `T` and SKU `a`, all other columns empty. -/
def rowA : Row :=
  { titolo := "T", sku := "a", descrizione := "", collezioni := "", tag := "",
    titoloPagina := "", metaDescrizione := "", handleURL := "" }

/-- A second row with title `U` and SKU `b`. -/
def rowB : Row :=
  { titolo := "U", sku := "b", descrizione := "", collezioni := "", tag := "",
    titoloPagina := "", metaDescrizione := "", handleURL := "" }

/-- A row whose title is whitespace only. -/
def rowBlank : Row :=
  { titolo := "   ", sku := "s", descrizione := "", collezioni := "", tag := "",
    titoloPagina := "", metaDescrizione := "", handleURL := "" }

/-- A row whose title consists only of punctuation, so that its slug is
empty, with empty SKU and empty explicit handle. -/
def rowPunct : Row :=
  { titolo := "!!!", sku := "", descrizione := "", collezioni := "", tag := "",
    titoloPagina := "", metaDescrizione := "", handleURL := "" }

/-- A one-image archive index whose single filename contains `a`. -/
def indexA : List (String × List Nat) := [("a.jpg", [0])]

/-- A two-image index, both filenames containing `a`. -/
def indexAB : List (String × List Nat) := [("a.jpg", [0]), ("ab.png", [1])]

/-- An environment in which every remote call succeeds. -/
def envOk : Env :=
  { create := fun _ => .ok { id := some 1, handle := some "t" },
    attach := fun _ _ => .ok () }

/-- An environment in which product creation always fails with an HTTP 500
detail (after retry exhaustion). -/
def envErr : Env :=
  { create := fun _ => .error "POST /products.json -> 500: Internal Server Error",
    attach := fun _ _ => .ok () }

/-- An environment in which creation succeeds and attaching `a.jpg` fails
with an HTTP 422 detail while every other attachment succeeds. -/
def envMix : Env :=
  { create := fun _ => .ok { id := some 5, handle := some "t" },
    attach := fun _ img =>
      if img.filename = "a.jpg" then .error "POST /products/5/images.json -> 422: bad" else .ok () }

/-- A wrapped operation that fails with a network-level error on the first
three attempts and would succeed on the fourth. -/
def fNet : Nat → Except ApiError Nat :=
  fun n => if n ≤ 3 then .error (.network "connection reset") else .ok 7

/-- A wrapped operation that fails with a `ShopifyError` on the first three
attempts and succeeds on the fourth. -/
def fShop : Nat → Except ApiError Nat :=
  fun n => if n ≤ 3 then .error (.shopify "POST /products.json -> 500: err") else .ok 7

/-! ## Theorems -/

theorem lookup_cons_ne {α : Type} {k k' : String} (h : ¬ k' = k) (b : α)
    (es : List (String × α)) : List.lookup k' ((k, b) :: es) = List.lookup k' es := by
  have hb : (k' == k) = false := beq_eq_false_iff_ne.mpr h
  simp [List.lookup_cons, hb]

theorem lookup_dictInsert {α : Type} (d : List (String × α)) (k k' : String) (v : α) :
    List.lookup k' (dictInsert d k v) = if k' = k then some v else List.lookup k' d := by
  induction d with
  | nil =>
      by_cases h : k' = k
      · subst h; simp [dictInsert]
      · simp [dictInsert, lookup_cons_ne h, h]
  | cons p rest ih =>
      obtain ⟨k0, v0⟩ := p
      by_cases h0 : k0 = k
      · subst h0
        by_cases h : k' = k0
        · subst h; simp [dictInsert]
        · simp [dictInsert, lookup_cons_ne h, h]
      · by_cases h : k' = k0
        · have hk : ¬ k' = k := fun hh => h0 (h.symm.trans hh)
          simp only [dictInsert, if_neg h0, if_neg hk, h, List.lookup_cons_self]
        · simp only [dictInsert, if_neg h0, lookup_cons_ne h, ih]

theorem lookup_buildIndexAux (rest : List (String × List Nat)) :
    ∀ (d : List (String × List Nat)) (k : String),
      List.lookup k (buildIndexAux d rest) =
        (List.lookup k (((rest.filter fun nc => zipQualifies nc.1).map
            fun nc => (basenameLower nc.1, nc.2)).reverse)).or (List.lookup k d) := by
  induction rest with
  | nil => intro d k; simp [buildIndexAux]
  | cons nc rest ih =>
      intro d k
      obtain ⟨n, c⟩ := nc
      by_cases hq : zipQualifies n = true
      · simp only [buildIndexAux, hq, if_true, List.filter_cons_of_pos, List.map_cons,
          List.reverse_cons]
        rw [ih, List.lookup_append, lookup_dictInsert]
        by_cases hk : k = basenameLower n
        · cases hx : List.lookup k (((rest.filter fun nc => zipQualifies nc.1).map
              fun nc => (basenameLower nc.1, nc.2)).reverse) <;>
            simp [hk, hx, Option.or]
        · cases hx : List.lookup k (((rest.filter fun nc => zipQualifies nc.1).map
              fun nc => (basenameLower nc.1, nc.2)).reverse) <;>
            simp [hk, hx, lookup_cons_ne hk, Option.or]
      · simp only [buildIndexAux, hq]
        simp only [Bool.not_eq_true] at hq
        simp [List.filter_cons_of_neg, hq, ih]

/-- C6: for every archive (modelled as its ordered entry list), looking up
any key in the resulting image index gives exactly what one gets from the
qualifying entries alone — those that are not directories and whose
lowercased name ends in a supported image extension — keyed by lowercased
basename, with the last qualifying entry in archive iteration order
winning on key collisions (lookup in the reversed qualifying list). -/
theorem C6_image_index (entries : List (String × List Nat)) (k : String) :
    List.lookup k (build_image_index_from_zip entries) =
      List.lookup k (((entries.filter fun nc => zipQualifies nc.1).map
        fun nc => (basenameLower nc.1, nc.2)).reverse) := by
  rw [build_image_index_from_zip, lookup_buildIndexAux]
  simp [Option.or_none]

/-- C8: an image is in the matched list for a key list precisely when its
filename is one of the index filenames and some non-empty key, lowercased,
is a substring of that filename; and on the spec's concrete example the
matched filenames are exactly `abc123-front.jpg` and `blue-shirt-2.webp`. -/
theorem C8_matching :
    (∀ (index : List (String × List Nat)) (keys : List String) (fname : String),
      (∃ img ∈ find_images_for_product index keys, img.filename = fname) ↔
        (fname ∈ index.map Prod.fst ∧
          ∃ k ∈ keys, k ≠ "" ∧ containsSub fname (pyLower k) = true)) ∧
    (find_images_for_product
        [("abc123-front.jpg", [1]), ("other.png", [2]), ("blue-shirt-2.webp", [3])]
        ["abc123", "blue-shirt"]).map MatchedImage.filename
      = ["abc123-front.jpg", "blue-shirt-2.webp"] := by
  refine ⟨?_, by decide⟩
  intro index keys fname
  have hmap : (find_images_for_product index keys).map MatchedImage.filename
      = (index.map Prod.fst).filter
          (fun f => ((keys.filter (fun k => k ≠ "")).map pyLower).any
            (fun k => containsSub f k)) := by
    simp only [find_images_for_product, List.map_map, List.filter_map]
    rfl
  have h1 : (∃ img ∈ find_images_for_product index keys, img.filename = fname)
      ↔ fname ∈ (find_images_for_product index keys).map MatchedImage.filename :=
    Iff.symm List.mem_map
  rw [h1, hmap, List.mem_filter]
  simp only [List.any_eq_true, List.mem_map, List.mem_filter, decide_eq_true_eq]
  constructor
  · rintro ⟨hmem, x, ⟨k, ⟨hk, hne⟩, rfl⟩, hsub⟩
    exact ⟨hmem, k, hk, hne, hsub⟩
  · rintro ⟨hmem, k, hk, hne, hsub⟩
    exact ⟨hmem, pyLower k, ⟨k, ⟨hk, hne⟩, rfl⟩, hsub⟩

/-- C1 counterexample: with the configured maximum set to 0 the main loop
skips truncation entirely (Python truthiness of `max_images_per_product` in
`if max_images_per_product and len(images_found) > max_images_per_product`),
so a row with one containment-matched image still gets one image rather
than none, violating the claimed bound `length <= 0`. -/
theorem C1_counterexample :
    cfgMax0.maxImagesPerProduct = 0 ∧
    rowImages cfgMax0 indexA rowA = find_images_for_product indexA (rowKeys rowA) ∧
    ¬ (rowImages cfgMax0 indexA rowA).length ≤ cfgMax0.maxImagesPerProduct := by
  refine ⟨rfl, by decide, by decide⟩

/-- C1 (amended): the image list used for a row is always a take-prefix, in
index iteration order, of the full containment-matched list; when the
configured maximum is nonzero its length never exceeds the maximum; when the
configured maximum is 0 no truncation is applied and the full matched list
is used. -/
theorem C1_truncation (cfg : Config) (index : List (String × List Nat)) (r : Row) :
    (∃ n, rowImages cfg index r = (find_images_for_product index (rowKeys r)).take n) ∧
    (cfg.maxImagesPerProduct ≠ 0 →
      (rowImages cfg index r).length ≤ cfg.maxImagesPerProduct) ∧
    (cfg.maxImagesPerProduct = 0 →
      rowImages cfg index r = find_images_for_product index (rowKeys r)) := by
  unfold rowImages
  by_cases hidx : index ≠ []
  · rw [if_pos hidx]
    by_cases hcond : cfg.maxImagesPerProduct ≠ 0 ∧
        (find_images_for_product index (rowKeys r)).length > cfg.maxImagesPerProduct
    · rw [if_pos hcond]
      refine ⟨⟨cfg.maxImagesPerProduct, rfl⟩, fun _ => ?_, fun h0 => absurd h0 hcond.1⟩
      simp
    · rw [if_neg hcond]
      push_neg at hcond
      exact ⟨⟨(find_images_for_product index (rowKeys r)).length,
          (List.take_length _).symm⟩,
        fun hne => Nat.le_of_not_lt (by simpa using hcond hne), fun _ => rfl⟩
  · rw [if_neg hidx]
    simp only [not_not] at hidx
    subst hidx
    exact ⟨⟨0, rfl⟩, fun _ => Nat.zero_le _, fun _ => rfl⟩

/-- Witness for the amended C1 statement: with the default maximum of 10
the image list length is within bound at a concrete row and index. -/
theorem C1_truncation_witness :
    (rowImages cfgMax10 indexA rowA).length ≤ cfgMax10.maxImagesPerProduct :=
  (C1_truncation cfgMax10 indexA rowA).2.1 (by decide)

/-- C2 counterexample: for a row whose tag column is empty the normalized
tag list is empty, yet the payload dict still contains the key `tags` — it
is mapped to `null` (`"tags": tags_str` is unconditional in app.py line
255), so the key is not absent as claimed. -/
theorem C2_counterexample :
    rowTagList rowA = [] ∧
    "tags" ∈ (rowPayload cfgMax10 rowA).map Prod.fst ∧
    List.lookup "tags" (rowPayload cfgMax10 rowA) = some PVal.null := by
  refine ⟨by decide, by decide, ?_⟩
  rfl

/-- C2 (amended): whenever the normalized tag list of a row is empty, the
product payload carries the key `tags` mapped to `null` — no empty string
is sent, but the key is present with a null value rather than absent. -/
theorem C2_tags_null (cfg : Config) (r : Row) (h : rowTagList r = []) :
    List.lookup "tags" (rowPayload cfg r) = some PVal.null := by
  have ht : rowTagsStr r = none := by simp [rowTagsStr, h]
  simp only [rowPayload, ht]
  rfl

/-- Witness for the amended C2 statement at a concrete row with empty tags. -/
theorem C2_tags_null_witness :
    List.lookup "tags" (rowPayload cfgMax10 rowA) = some PVal.null :=
  C2_tags_null cfgMax10 rowA (by decide)

/-- C3 counterexample: an operation failing with a network-level error on
its first three attempts and succeeding on the fourth does not yield
success after 4 attempts: `retry_if_exception_type(ShopifyError)` does not
retry network errors, so the first attempt's error surfaces immediately
after exactly one attempt. -/
theorem C3_counterexample :
    retryCall fNet = (.error (.network "connection reset"), 1) ∧
    retryCall fNet ≠ (.ok 7, 4) := by
  refine ⟨rfl, fun h => Except.noConfusion (congrArg Prod.fst h)⟩

/-- C3 (amended): for the retry-wrapped calls, failing with the
`ShopifyError` kind (HTTP status >= 400) on the first three attempts and
succeeding on the fourth yields success after exactly 4 attempts; failing
with that kind on all four attempts surfaces the last attempt's error with
exactly 4 attempts made and no fifth; an error of any other kind (a
network-level failure) is not retried by this layer and surfaces after one
attempt; and the outcome never depends on the operation beyond attempt 4. -/
theorem C3_retry (f : Nat → Except ApiError Nat) :
    (∀ v d1 d2 d3, f 1 = .error (.shopify d1) → f 2 = .error (.shopify d2) →
        f 3 = .error (.shopify d3) → f 4 = .ok v →
        retryCall f = (.ok v, 4)) ∧
    (∀ d1 d2 d3 d4, f 1 = .error (.shopify d1) → f 2 = .error (.shopify d2) →
        f 3 = .error (.shopify d3) → f 4 = .error (.shopify d4) →
        retryCall f = (.error (.shopify d4), 4)) ∧
    (∀ e, f 1 = .error e → e.isShopify = false → retryCall f = (.error e, 1)) ∧
    (∀ g : Nat → Except ApiError Nat, (∀ n ∈ [1, 2, 3, 4], f n = g n) →
        retryCall f = retryCall g) := by
  refine ⟨?_, ?_, ?_, ?_⟩
  · intro v d1 d2 d3 h1 h2 h3 h4
    simp [retryCall, retryAux, h1, h2, h3, h4, ApiError.isShopify]
  · intro d1 d2 d3 d4 h1 h2 h3 h4
    simp [retryCall, retryAux, h1, h2, h3, h4, ApiError.isShopify]
  · intro e h1 he
    simp [retryCall, retryAux, h1, he]
  · intro g hg
    have h1 := hg 1 (by simp)
    have h2 := hg 2 (by simp)
    have h3 := hg 3 (by simp)
    have h4 := hg 4 (by simp)
    simp only [retryCall, retryAux, h1, h2, h3, h4]

/-- Witness: the amended retry behaviour at the concrete operation that
fails with an HTTP 500 `ShopifyError` three times and then succeeds. -/
theorem C3_retry_witness : retryCall fShop = (.ok 7, 4) :=
  (C3_retry fShop).1 7 _ _ _ rfl rfl rfl rfl

/-- C7: a row whose title strips to empty yields exactly one `skipped` log
record with the missing-title reason and triggers no remote call at all;
and any row whose stripped title is non-empty reaches the create-product
call, so the missing title is the only row-blocking condition. -/
theorem C7_skip (cfg : Config) (env : Env) (index : List (String × List Nat))
    (i : Nat) (r : Row) :
    (rowTitle r = "" →
      processRow cfg env index i r =
        ([.skipped i (rowTitle r) (rowSku r) "Titolo mancante"], [])) ∧
    (rowTitle r ≠ "" →
      RemoteCall.createP (rowPayload cfg r) ∈ (processRow cfg env index i r).2) := by
  constructor
  · intro h
    simp [processRow, h]
  · intro h
    simp only [processRow, if_neg h]
    cases hc : env.create (rowPayload cfg r) <;> simp

/-- Witness for C7 at a whitespace-only-title row (skipped, no calls) and a
concrete titled row (create call made). -/
theorem C7_skip_witness :
    processRow cfgMax10 envOk [] 0 rowBlank =
      ([.skipped 0 "" "s" "Titolo mancante"], []) ∧
    RemoteCall.createP (rowPayload cfgMax10 rowA) ∈ (processRow cfgMax10 envOk [] 0 rowA).2 :=
  ⟨(C7_skip cfgMax10 envOk [] 0 rowBlank).1 (by decide),
   (C7_skip cfgMax10 envOk [] 0 rowA).2 (by decide)⟩

theorem processRowsFrom_append (cfg : Config) (env : Env)
    (index : List (String × List Nat)) (i : Nat) (l1 l2 : List Row) :
    processRowsFrom cfg env index i (l1 ++ l2) =
      ((processRowsFrom cfg env index i l1).1 ++
         (processRowsFrom cfg env index (i + l1.length) l2).1,
       (processRowsFrom cfg env index i l1).2 ++
         (processRowsFrom cfg env index (i + l1.length) l2).2) := by
  induction l1 generalizing i with
  | nil => simp [processRowsFrom]
  | cons a t ih =>
      simp only [List.cons_append, processRowsFrom, List.append_eq, ih, List.length_cons]
      rw [show i + 1 + t.length = i + (t.length + 1) from by omega]
      simp [List.append_assoc]

/-- C4: for a non-skipped row whose create-product call fails (after retry
exhaustion), exactly one log record — status `error`, carrying the
truncated failure detail — is produced for that row, its only remote call
is the create call (no SEO update, no image attachment), and all preceding
and subsequent rows contribute their own logs and calls unchanged: the run
continues. -/
theorem C4_create_error (cfg : Config) (env : Env) (index : List (String × List Nat))
    (i : Nat) (pre : List Row) (r : Row) (post : List Row) (e : String)
    (ht : rowTitle r ≠ "") (hc : env.create (rowPayload cfg r) = .error e) :
    processRowsFrom cfg env index i (pre ++ r :: post) =
      ((processRowsFrom cfg env index i pre).1 ++
         LogEntry.error (i + pre.length) (rowTitle r) (rowSku r) (takeChars e 500) ::
         (processRowsFrom cfg env index (i + pre.length + 1) post).1,
       (processRowsFrom cfg env index i pre).2 ++
         RemoteCall.createP (rowPayload cfg r) ::
         (processRowsFrom cfg env index (i + pre.length + 1) post).2) := by
  rw [processRowsFrom_append]
  simp only [processRowsFrom]
  simp [processRow, ht, hc]

/-- Witness for C4: a two-row run in which creation always fails with an
HTTP 500 detail; the first row is `pre = []`, the second is `post`. -/
theorem C4_create_error_witness :
    processRowsFrom cfgMax10 envErr [] 0 ([] ++ rowA :: [rowB]) =
      ((processRowsFrom cfgMax10 envErr [] 0 []).1 ++
         LogEntry.error (0 + List.length ([] : List Row)) (rowTitle rowA) (rowSku rowA)
           (takeChars "POST /products.json -> 500: Internal Server Error" 500) ::
         (processRowsFrom cfgMax10 envErr [] (0 + List.length ([] : List Row) + 1) [rowB]).1,
       (processRowsFrom cfgMax10 envErr [] 0 []).2 ++
         RemoteCall.createP (rowPayload cfgMax10 rowA) ::
         (processRowsFrom cfgMax10 envErr [] (0 + List.length ([] : List Row) + 1) [rowB]).2) :=
  C4_create_error cfgMax10 envErr [] 0 [] rowA [rowB]
    "POST /products.json -> 500: Internal Server Error" (by decide) rfl

/-- C5: for a row whose creation succeeds, the remote calls are the create
call, the (optional) SEO update, and one individual attach call per matched
image; each failed attachment contributes its own `image_error` record
carrying the row number, product id, filename and 300-character-truncated
error detail, without stopping later attachments; and the final record of
the row is always `created`, counting exactly the images whose attach call
succeeded. -/
theorem C5_attach (cfg : Config) (env : Env) (index : List (String × List Nat))
    (i : Nat) (r : Row) (prod : Product)
    (ht : rowTitle r ≠ "") (hc : env.create (rowPayload cfg r) = .ok prod) :
    processRow cfg env index i r =
      ((rowImages cfg index r).filterMap (fun img =>
          match env.attach prod.id img with
          | .ok _ => none
          | .error e =>
              some (LogEntry.imageError i (rowTitle r) (rowSku r) prod.id
                (takeChars e 300) img.filename)) ++
        [LogEntry.created i (rowTitle r) (rowSku r) prod.id prod.handle
          (((rowImages cfg index r).filter
              (fun img => (env.attach prod.id img).isOk)).length)],
       RemoteCall.createP (rowPayload cfg r) ::
         (if (seoUpdateFields (pyStrip r.titoloPagina) (pyStrip r.metaDescrizione)).isEmpty
          then []
          else [RemoteCall.putSeo prod.id
            (seoUpdateFields (pyStrip r.titoloPagina) (pyStrip r.metaDescrizione))]) ++
         (rowImages cfg index r).map (fun img => RemoteCall.attachImg prod.id img)) := by
  simp only [processRow, if_neg ht, hc]
  rw [List.filterMap_map, List.filter_map, List.length_map]
  rfl

/-- Witness for C5: two matched images of which the first fails to attach
with an HTTP 422 detail and the second succeeds. -/
theorem C5_attach_witness :
    processRow cfgMax10 envMix indexAB 0 rowA =
      ((rowImages cfgMax10 indexAB rowA).filterMap (fun img =>
          match envMix.attach (some 5) img with
          | .ok _ => none
          | .error e =>
              some (LogEntry.imageError 0 (rowTitle rowA) (rowSku rowA) (some 5)
                (takeChars e 300) img.filename)) ++
        [LogEntry.created 0 (rowTitle rowA) (rowSku rowA) (some 5) (some "t")
          (((rowImages cfgMax10 indexAB rowA).filter
              (fun img => (envMix.attach (some 5) img).isOk)).length)],
       RemoteCall.createP (rowPayload cfgMax10 rowA) ::
         (if (seoUpdateFields (pyStrip rowA.titoloPagina) (pyStrip rowA.metaDescrizione)).isEmpty
          then []
          else [RemoteCall.putSeo (some 5)
            (seoUpdateFields (pyStrip rowA.titoloPagina) (pyStrip rowA.metaDescrizione))]) ++
         (rowImages cfgMax10 indexAB rowA).map
           (fun img => RemoteCall.attachImg (some 5) img)) :=
  C5_attach cfgMax10 envMix indexAB 0 rowA { id := some 5, handle := some "t" }
    (by decide) rfl

/-- C10: for a row whose explicit handle column is empty and whose
non-empty title slugifies to the empty string, the payload carries no
`handle` key at all, the handle contributes no identity key for image
matching, and if the SKU is empty as well the row matches no images. -/
theorem C10_empty_slug (cfg : Config) (index : List (String × List Nat)) (r : Row)
    (hh : pyStrip r.handleURL = "") (ht : rowTitle r ≠ "")
    (hs : slugify (rowTitle r) = "") :
    ("handle" ∉ (rowPayload cfg r).map Prod.fst) ∧
    rowKeys r = (if rowSku r = "" then [] else [rowSku r]) ∧
    (rowSku r = "" → rowImages cfg index r = []) := by
  have hr : rowHandle r = some "" := by
    simp [rowHandle, hh, ht, hs]
  have hkeys : rowKeys r = (if rowSku r = "" then [] else [rowSku r]) := by
    simp only [rowKeys, hr, List.filterMap_cons, List.filterMap_nil, id]
    by_cases hsku : rowSku r = "" <;> simp [hsku]
  refine ⟨?_, hkeys, ?_⟩
  · simp [rowPayload, hr, optTruthy]
  · intro hsku
    have hk : rowKeys r = [] := by rw [hkeys, if_pos hsku]
    have hfind : ∀ idx : List (String × List Nat),
        find_images_for_product idx (rowKeys r) = [] := by
      intro idx
      simp [find_images_for_product, hk]
    unfold rowImages
    by_cases hidx : index ≠ []
    · rw [if_pos hidx, hfind]
      simp
    · rw [if_neg hidx]

/-- Witness for C10 at a concrete row whose title is punctuation only. -/
theorem C10_empty_slug_witness :
    ("handle" ∉ (rowPayload cfgMax10 rowPunct).map Prod.fst) ∧
    rowKeys rowPunct = (if rowSku rowPunct = "" then [] else [rowSku rowPunct]) ∧
    (rowSku rowPunct = "" → rowImages cfgMax10 indexA rowPunct = []) :=
  C10_empty_slug cfgMax10 indexA rowPunct (by decide) (by decide) (by decide)

/-! ### Idempotence of the fallback slugify (C9) -/

theorem sNormChar_lt {n : Nat} (h : sNormChar n = true) : n < 128 := by
  simp only [sNormChar, Bool.or_eq_true, Bool.and_eq_true, decide_eq_true_eq,
    beq_iff_eq] at h
  omega

theorem sNormChar_sKeep {n : Nat} (h : sNormChar n = true) : sKeep n = true := by
  simp only [sNormChar, Bool.or_eq_true, Bool.and_eq_true, decide_eq_true_eq,
    beq_iff_eq] at h
  simp only [sKeep, Bool.or_eq_true, Bool.and_eq_true, decide_eq_true_eq, beq_iff_eq]
  omega

theorem sNormChar_not_upper {n : Nat} (h : sNormChar n = true) : ¬ (65 ≤ n ∧ n ≤ 90) := by
  simp only [sNormChar, Bool.or_eq_true, Bool.and_eq_true, decide_eq_true_eq,
    beq_iff_eq] at h
  omega

theorem sAsciiIgnore_id (l : List Nat) (h : ∀ n ∈ l, sNormChar n = true) :
    sAsciiIgnore l = l :=
  List.filter_eq_self.mpr fun n hn => by simpa using sNormChar_lt (h n hn)

theorem sLower_id (l : List Nat) (h : ∀ n ∈ l, sNormChar n = true) : sLower l = l := by
  induction l with
  | nil => rfl
  | cons a t ih =>
      have ha := sNormChar_not_upper (h a (List.mem_cons_self a t))
      have ht := ih fun n hn => h n (List.mem_cons_of_mem a hn)
      simp only [sLower, List.map_cons] at ht ⊢
      rw [if_neg ha, ht]

theorem sSubRuns_id (l : List Nat) (h : ∀ n ∈ l, sKeep n = true) :
    ∀ b, sSubRuns b l = l := by
  induction l with
  | nil => intro b; rfl
  | cons a t ih =>
      intro b
      rw [sSubRuns, if_pos (h a (List.mem_cons_self a t))]
      rw [ih (fun n hn => h n (List.mem_cons_of_mem a hn)) false]

theorem dropWhile45_id (l : List Nat) (h : head45 l = false) :
    l.dropWhile (fun n => n == 45) = l := by
  cases l with
  | nil => rfl
  | cons a t =>
      simp only [head45] at h
      simp [List.dropWhile_cons, h]

theorem sStripEnd_id (l : List Nat) : last45 l = false → sStripEnd l = l := by
  induction l with
  | nil => intro _; rfl
  | cons a t ih =>
      intro h
      cases t with
      | nil =>
          simp only [last45] at h
          simp [sStripEnd, h]
      | cons b t2 =>
          have h2 : last45 (b :: t2) = false := h
          rw [sStripEnd, ih h2]

theorem sStrip_id (l : List Nat) (hh : head45 l = false) (hl : last45 l = false) :
    sStrip l = l := by
  rw [sStrip, dropWhile45_id l hh, sStripEnd_id l hl]

theorem hasDH_cons (a : Nat) (z : List Nat) :
    hasDH (a :: z) = ((a == 45 && head45 z) || hasDH z) := by
  cases z with
  | nil => simp [hasDH, head45]
  | cons b t => rfl

theorem sCollapse_id (l : List Nat) : hasDH l = false →
    (sCollapse false l = l ∧ (head45 l = false → sCollapse true l = l)) := by
  induction l with
  | nil => intro _; exact ⟨rfl, fun _ => rfl⟩
  | cons a t ih =>
      intro h
      rw [hasDH_cons] at h
      simp only [Bool.or_eq_false_iff, Bool.and_eq_false_iff] at h
      have hdt : hasDH t = false := h.2
      obtain ⟨ihF, ihT⟩ := ih hdt
      constructor
      · by_cases ha : (a == 45) = true
        · have hht : head45 t = false := by
            rcases h.1 with h45 | hht
            · rw [ha] at h45; cases h45
            · exact hht
          rw [sCollapse, if_pos ha]
          show 45 :: sCollapse true t = a :: t
          rw [ihT hht]
          have h45 : a = 45 := by simpa using ha
          rw [h45]
        · have ha' : (a == 45) = false := Bool.not_eq_true _ ▸ (by simpa using ha)
          rw [sCollapse, if_neg (by simp [ha']), ihF]
      · intro hh
        simp only [head45] at hh
        rw [sCollapse, if_neg (by simp [hh]), ihF]

theorem mem_sStripEnd {n : Nat} : ∀ {l : List Nat}, n ∈ sStripEnd l → n ∈ l := by
  intro l
  induction l with
  | nil => simp [sStripEnd]
  | cons a t ih =>
      intro hn
      rw [sStripEnd] at hn
      cases hr : sStripEnd t with
      | nil =>
          rw [hr] at hn
          by_cases ha : (a == 45) = true
          · rw [if_pos ha] at hn; cases hn
          · rw [if_neg ha] at hn
            rcases List.mem_singleton.mp hn with rfl
            exact List.mem_cons_self _ _
      | cons x xs =>
          rw [hr] at hn
          rcases List.mem_cons.mp hn with rfl | h2
          · exact List.mem_cons_self _ _
          · exact List.mem_cons_of_mem a (ih (hr ▸ h2))

theorem mem_sCollapse {n : Nat} : ∀ {l : List Nat} {b : Bool}, n ∈ sCollapse b l → n ∈ l := by
  intro l
  induction l with
  | nil => intro b h; cases h
  | cons a t ih =>
      intro b hn
      rw [sCollapse] at hn
      by_cases ha : (a == 45) = true
      · rw [if_pos ha] at hn
        have ha2 : a = 45 := by simpa using ha
        cases b with
        | true => exact List.mem_cons_of_mem a (ih hn)
        | false =>
            have hn2 : n ∈ 45 :: sCollapse true t := hn
            rcases List.mem_cons.mp hn2 with rfl | h2
            · rw [ha2]; exact List.mem_cons_self _ _
            · exact List.mem_cons_of_mem a (ih h2)
      · rw [if_neg ha] at hn
        rcases List.mem_cons.mp hn with rfl | h2
        · exact List.mem_cons_self _ _
        · exact List.mem_cons_of_mem a (ih h2)

theorem mem_sSubRuns {n : Nat} : ∀ {l : List Nat} {b : Bool},
    n ∈ sSubRuns b l → n = 45 ∨ (n ∈ l ∧ sKeep n = true) := by
  intro l
  induction l with
  | nil => intro b h; cases h
  | cons a t ih =>
      intro b hn
      rw [sSubRuns] at hn
      by_cases ha : sKeep a = true
      · rw [if_pos ha] at hn
        rcases List.mem_cons.mp hn with rfl | h2
        · exact Or.inr ⟨List.mem_cons_self _ _, ha⟩
        · rcases ih h2 with h45 | ⟨hm, hk⟩
          · exact Or.inl h45
          · exact Or.inr ⟨List.mem_cons_of_mem a hm, hk⟩
      · rw [if_neg ha] at hn
        cases b with
        | true =>
            rcases ih hn with h45 | ⟨hm, hk⟩
            · exact Or.inl h45
            · exact Or.inr ⟨List.mem_cons_of_mem a hm, hk⟩
        | false =>
            rcases List.mem_cons.mp hn with rfl | h2
            · exact Or.inl rfl
            · rcases ih h2 with h45 | ⟨hm, hk⟩
              · exact Or.inl h45
              · exact Or.inr ⟨List.mem_cons_of_mem a hm, hk⟩

theorem mem_sLower_not_upper {n : Nat} {l : List Nat} (hn : n ∈ sLower l) :
    ¬ (65 ≤ n ∧ n ≤ 90) := by
  rw [sLower, List.mem_map] at hn
  obtain ⟨m, _, rfl⟩ := hn
  by_cases hm : 65 ≤ m ∧ m ≤ 90
  · rw [if_pos hm]; omega
  · rw [if_neg hm]; omega

theorem subRuns_chars (w : List Nat) {n : Nat}
    (hn : n ∈ sSubRuns false (sLower w)) : sNormChar n = true := by
  rcases mem_sSubRuns hn with rfl | ⟨hm, hk⟩
  · decide
  · have hu := mem_sLower_not_upper hm
    simp only [sKeep, Bool.or_eq_true, Bool.and_eq_true, decide_eq_true_eq,
      beq_iff_eq] at hk
    simp only [sNormChar, Bool.or_eq_true, Bool.and_eq_true, decide_eq_true_eq,
      beq_iff_eq]
    omega

theorem head45_dropWhile (l : List Nat) :
    head45 (l.dropWhile (fun n => n == 45)) = false := by
  induction l with
  | nil => rfl
  | cons a t ih =>
      by_cases ha : (a == 45) = true
      · simpa [List.dropWhile_cons, ha] using ih
      · simp [List.dropWhile_cons, ha, head45]

theorem head45_sStripEnd (l : List Nat) (h : head45 l = false) :
    head45 (sStripEnd l) = false := by
  cases l with
  | nil => rfl
  | cons a t =>
      simp only [head45] at h
      rw [sStripEnd]
      cases hr : sStripEnd t with
      | nil => rw [if_neg (by simp [h])]; simp [head45, h]
      | cons x xs => simp [head45, h]

theorem head45_sStrip (l : List Nat) : head45 (sStrip l) = false :=
  head45_sStripEnd _ (head45_dropWhile l)

theorem last45_sStripEnd (l : List Nat) : last45 (sStripEnd l) = false := by
  induction l with
  | nil => rfl
  | cons a t ih =>
      rw [sStripEnd]
      cases hr : sStripEnd t with
      | nil =>
          by_cases ha : (a == 45) = true
          · rw [if_pos ha]; rfl
          · rw [if_neg ha]; simpa [last45] using ha
      | cons x xs =>
          have : last45 (a :: x :: xs) = last45 (x :: xs) := rfl
          rw [this, ← hr]
          exact ih

theorem last45_cons_of_ne_nil {t : List Nat} (a : Nat) (h : t ≠ []) :
    last45 (a :: t) = last45 t := by
  cases t with
  | nil => exact absurd rfl h
  | cons b t2 => rfl

theorem sCollapse_ne_nil : ∀ (l : List Nat) (b : Bool), l ≠ [] → last45 l = false →
    sCollapse b l ≠ [] := by
  intro l
  induction l with
  | nil => intro b h; exact absurd rfl h
  | cons a t ih =>
      intro b _ hl
      rw [sCollapse]
      by_cases ha : (a == 45) = true
      · rw [if_pos ha]
        have ht : t ≠ [] := by
          intro hnil
          subst hnil
          simp only [last45] at hl
          rw [ha] at hl; cases hl
        have hlt : last45 t = false := by
          rw [← last45_cons_of_ne_nil a ht]; exact hl
        cases b with
        | true => exact ih true ht hlt
        | false => simp
      · rw [if_neg ha]; simp

theorem last45_sCollapse : ∀ (l : List Nat) (b : Bool), last45 l = false →
    last45 (sCollapse b l) = false := by
  intro l
  induction l with
  | nil => intro b _; rfl
  | cons a t ih =>
      intro b hl
      rw [sCollapse]
      by_cases ha : (a == 45) = true
      · rw [if_pos ha]
        have ht : t ≠ [] := by
          intro hnil
          subst hnil
          simp only [last45] at hl
          rw [ha] at hl; cases hl
        have hlt : last45 t = false := by
          rw [← last45_cons_of_ne_nil a ht]; exact hl
        cases b with
        | true => exact ih true hlt
        | false =>
            show last45 (45 :: sCollapse true t) = false
            rw [last45_cons_of_ne_nil 45 (sCollapse_ne_nil t true ht hlt)]
            exact ih true hlt
      · rw [if_neg ha]
        cases hz : sCollapse false t with
        | nil => simpa [last45] using ha
        | cons x xs =>
            rw [last45_cons_of_ne_nil a (by simp [hz])]
            rw [← hz]
            have hlt : last45 t = false := by
              cases t with
              | nil => rfl
              | cons b2 t2 => exact hl
            exact ih false hlt

theorem noDH_sCollapse : ∀ l : List Nat,
    hasDH (sCollapse false l) = false ∧
    hasDH (sCollapse true l) = false ∧ head45 (sCollapse true l) = false := by
  intro l
  induction l with
  | nil => exact ⟨rfl, rfl, rfl⟩
  | cons a t ih =>
      obtain ⟨ihF, ihT, ihH⟩ := ih
      by_cases ha : (a == 45) = true
      · refine ⟨?_, ?_, ?_⟩
        · rw [sCollapse, if_pos ha]
          show hasDH (45 :: sCollapse true t) = false
          rw [hasDH_cons, ihH, ihT]
          rfl
        · rw [sCollapse, if_pos ha]; exact ihT
        · rw [sCollapse, if_pos ha]; exact ihH
      · refine ⟨?_, ?_, ?_⟩
        · rw [sCollapse, if_neg ha, hasDH_cons, ihF]
          simp [ha]
        · rw [sCollapse, if_neg ha, hasDH_cons, ihF]
          simp [ha]
        · rw [sCollapse, if_neg ha]
          simpa [head45] using ha

theorem slugify_norm (l : List Nat) :
    (∀ n ∈ slugifyCore l, sNormChar n = true) ∧
    head45 (slugifyCore l) = false ∧ last45 (slugifyCore l) = false ∧
    hasDH (slugifyCore l) = false := by
  refine ⟨?_, ?_, ?_, (noDH_sCollapse _).1⟩
  · intro n hn
    rw [slugifyCore] at hn
    have h1 : n ∈ sStrip (sSubRuns false (sLower (sAsciiIgnore l))) := mem_sCollapse hn
    rw [sStrip] at h1
    have h2 := mem_sStripEnd h1
    have h3 := (List.dropWhile_sublist (fun n => n == 45)).subset h2
    exact subRuns_chars (sAsciiIgnore l) h3
  · rw [slugifyCore]
    cases hz : sStrip (sSubRuns false (sLower (sAsciiIgnore l))) with
    | nil => rfl
    | cons x xs =>
        have hx : head45 (x :: xs) = false := by
          rw [← hz]; exact head45_sStrip _
        simp only [head45] at hx
        rw [sCollapse, if_neg (by simp [hx])]
        simpa [head45] using hx
  · rw [slugifyCore, sStrip]
    exact last45_sCollapse _ false (last45_sStripEnd _)

theorem slugifyCore_id (l : List Nat)
    (hchar : ∀ n ∈ l, sNormChar n = true) (hh : head45 l = false)
    (hl : last45 l = false) (hd : hasDH l = false) : slugifyCore l = l := by
  rw [slugifyCore, sAsciiIgnore_id l hchar, sLower_id l hchar,
    sSubRuns_id l (fun n hn => sNormChar_sKeep (hchar n hn)) false,
    sStrip_id l hh hl, (sCollapse_id l hd).1]

theorem slugifyCore_idem (l : List Nat) :
    slugifyCore (slugifyCore l) = slugifyCore l := by
  obtain ⟨h1, h2, h3, h4⟩ := slugify_norm l
  exact slugifyCore_id _ h1 h2 h3 h4

theorem charToNat_ofNat {n : Nat} (h : n < 55296) : (Char.ofNat n).toNat = n := by
  have hv : n.isValidChar := Or.inl h
  rw [Char.ofNat, dif_pos hv]
  rfl

/-- C9: the fallback slugify of app.py lines 17-20 is idempotent:
`slugify(slugify(x)) == slugify(x)` for every string `x`. -/
theorem C9_slugify_idem (s : String) : slugify (slugify s) = slugify s := by
  unfold slugify
  congr 1
  show ((slugifyCore
      (((slugifyCore (s.data.map Char.toNat)).map Char.ofNat).map Char.toNat)).map
        Char.ofNat)
    = (slugifyCore (s.data.map Char.toNat)).map Char.ofNat
  congr 1
  rw [List.map_map]
  have hsmall : ∀ n ∈ slugifyCore (s.data.map Char.toNat),
      (Char.toNat ∘ Char.ofNat) n = n := by
    intro n hn
    have hnorm := (slugify_norm (s.data.map Char.toNat)).1 n hn
    have hlt : n < 55296 := by
      have := sNormChar_lt hnorm
      omega
    simpa using charToNat_ofNat hlt
  rw [List.map_congr_left hsmall, List.map_id']
  exact slugifyCore_idem _

end ProdottiWow
